import Mathlib

/-!
Verification development for `telegram_upload/upload_files.py`.

The Python source is shallowly embedded below: pure computations become Lean
functions over `Nat`/`Int`/`String`/`List`, the stateful `SplitFile` stream
(a `FileIO` subclass) becomes an explicit state record with a step function,
and fallible constructors become `Except`-valued functions.  External
collaborators (the Telegram client, `hachoir`, `CaptionFormatter`,
`click.echo`, the OS file system) appear only as parameters or as abstract
data consumed by the embedded code, mirroring the interface the source uses.
-/

namespace TgUp

/- String constants used by embeddings and example inputs. -/

def dotStr : String := "."

def slashStr : String := "/"

def quoteStr : String := "\""

def zeroChar : Char := '0'

def zeroStr : String := "0"

def minusChar : Char := '-'

def plusChar : Char := '+'

def slashChar : Char := '/'

def dotChar : Char := '.'

/-- Python `str.split(sep)` for a one-character separator, on char lists:
split at every occurrence, preserving empty pieces (`''.split(sep)` is
`['']`). -/
def splitOnChar (c : Char) : List Char → List (List Char)
  | [] => [[]]
  | x :: xs =>
    let r := splitOnChar c xs
    if x = c then [] :: r
    else
      match r with
      | [] => [[x]]
      | y :: ys => (x :: y) :: ys

/-- Python `str.split(sep)` for a one-character separator. -/
def pySplit (s : String) (sep : Char) : List String :=
  (splitOnChar sep s.toList).map String.mk

/-!
Section: Split planning — `SplitFiles.process_large_file` (upload_files.py lines 245-255)

    file_name = os.path.basename(file)
    total_size = os.path.getsize(file)
    parts = math.ceil(total_size / self.client.max_file_size)
    zfill = int(math.log10(10)) + 1
    for part in range(parts):
        size = total_size - (part * self.client.max_file_size) \
               if part >= parts - 1 else self.client.max_file_size
        splitted_file = SplitFile(self.client, file, size,
                                  '{}.{}'.format(file_name, str(part).zfill(zfill)))
        splitted_file.seek(self.client.max_file_size * part, split_seek=True)
        yield splitted_file

`math.ceil(total_size / max)` is embedded as exact ceiling division on `Nat`
(the float division is exact for the sizes at stake).  `int(math.log10(10))`
is embedded as `Nat.log 10 10` (the float `log10(10)` is exactly `1.0`).
-/

/-- `parts = math.ceil(total_size / max_file_size)` as `Nat` ceiling division. -/
def SplitFiles.parts (totalSize maxFileSize : ℕ) : ℕ :=
  (totalSize + maxFileSize - 1) / maxFileSize

/-- The `size` computed for part `part` inside the loop:
`total_size - (part * max) if part >= parts - 1 else max`. -/
def SplitFiles.partSize (totalSize maxFileSize part : ℕ) : ℕ :=
  if SplitFiles.parts totalSize maxFileSize - 1 ≤ part then
    totalSize - part * maxFileSize
  else
    maxFileSize

/-- `zfill = int(math.log10(10)) + 1` (upload_files.py line 250). -/
def splitZfill : ℕ := Nat.log 10 10 + 1

/-- Python `str.zfill(width)` on char lists: left-pad with the digit 0 up
to `width` (no-op when the string is long enough, expressed by the
truncated subtraction), keeping a leading sign character in front of the
padding. -/
def zfillList (l : List Char) (width : ℕ) : List Char :=
  match l with
  | [] => List.replicate width zeroChar
  | c :: cs =>
    if c = minusChar ∨ c = plusChar then
      c :: (List.replicate (width - l.length) zeroChar ++ cs)
    else
      List.replicate (width - l.length) zeroChar ++ l

/-- Python `str.zfill(width)`. -/
def zfill (s : String) (width : ℕ) : String :=
  String.mk (zfillList s.toList width)

/-- `'{}.{}'.format(file_name, str(part).zfill(zfill))` (line 253). -/
def SplitFiles.partName (fileName : String) (part : ℕ) : String :=
  fileName ++ dotStr ++ zfill (toString part) splitZfill

/-- The (offset, length) pairs the loop produces in index order: part `i`
is seeked to `max_file_size * part` (line 254) and has length
`partSize totalSize maxFileSize i`. -/
def SplitFiles.plan (totalSize maxFileSize : ℕ) : List (ℕ × ℕ) :=
  (List.range (SplitFiles.parts totalSize maxFileSize)).map
    (fun i => (maxFileSize * i, SplitFiles.partSize totalSize maxFileSize i))

/-!
Section: The `SplitFile` byte stream — `SplitFile` (upload_files.py lines 206-242)

`SplitFile` subclasses `FileIO`.  Its observable stream state is embedded as a
record: `fileSize` is the size of the underlying file on disk, `pos` the
underlying file position (`tell()`), `remaining` the `remaining_size`
attribute (an `Int`: consumer seeks may drive it negative or above
`max_read_size`), plus the constructor-set `max_read_size` and `_name`.
A read returns `k` bytes taken from positions `[pos, pos + k)` of the
underlying file; the embedding tracks those segments rather than byte values.
-/

structure SplitFileSt where
  fileSize : ℕ
  pos : ℕ
  remaining : ℤ
  maxReadSize : ℕ
  name : String
  deriving DecidableEq

/-- `FileIO.read(size)` on a regular file of size `fileSize` at position
`pos`: a negative size reads to EOF, otherwise up to `size` bytes are
returned; the count returned is `min size (fileSize - pos)`. -/
def rawRead (fileSize pos : ℕ) (size : ℤ) : ℕ :=
  if size < 0 then fileSize - pos else min size.toNat (fileSize - pos)

/-- `SplitFile.__init__` stream state: `remaining_size = max_read_size`,
underlying handle freshly opened at position 0. -/
def SplitFileSt.init (fileSize maxReadSize : ℕ) (name : String) : SplitFileSt :=
  { fileSize := fileSize, pos := 0, remaining := (maxReadSize : ℤ),
    maxReadSize := maxReadSize, name := name }

/-- `SplitFile.read` (lines 215-222):

    if size == -1:
        size = self.remaining_size
    if not self.remaining_size:
        return b''
    size = min(self.remaining_size, size)
    self.remaining_size -= size
    return super().read(size)

Returns the updated state and the number of bytes the call returned
(taken from positions `[pos, pos + k)` of the underlying file). -/
def SplitFileSt.read (s : SplitFileSt) (size : ℤ) : SplitFileSt × ℕ :=
  let size1 := if size = -1 then s.remaining else size
  if s.remaining = 0 then (s, 0)
  else
    let size2 := min s.remaining size1
    let k := rawRead s.fileSize s.pos size2
    ({ s with remaining := s.remaining - size2, pos := s.pos + k }, k)

/-- `SplitFile.readall` (lines 224-225): `return self.read()`. -/
def SplitFileSt.readall (s : SplitFileSt) : SplitFileSt × ℕ :=
  s.read (-1)

/-- `SplitFile.seek` (lines 235-238), for the `SEEK_SET` whence the callers
use (`offset` is the absolute target position):

    if not split_seek:
        self.remaining_size += self.tell() - offset
    return super().seek(offset, whence)
-/
def SplitFileSt.seek (s : SplitFileSt) (offset : ℕ) (splitSeek : Bool) : SplitFileSt :=
  let s1 := if splitSeek then s
            else { s with remaining := s.remaining + (s.pos : ℤ) - (offset : ℤ) }
  { s1 with pos := offset }

/-- The slice the `process_large_file` loop builds for part `part` of a file
of size `totalSize`: constructed with `partSize` as `max_read_size` and the
zero-filled part name, then internally repositioned to
`max_file_size * part` with `split_seek=True` (lines 253-254). -/
def SplitFiles.makeSlice (totalSize maxFileSize : ℕ) (fileName : String)
    (part : ℕ) : SplitFileSt :=
  (SplitFileSt.init totalSize (SplitFiles.partSize totalSize maxFileSize part)
    (SplitFiles.partName fileName part)).seek (maxFileSize * part) true

/-!
Subsection: Consumer operation traces over a `SplitFile`

The transport consumer may interleave `read` and (external) `seek` calls.
A trace records, for every read, the segment `(start, count)` of underlying
file positions it returned.
-/

inductive SFOp where
  | read (size : ℤ)
  | seek (offset : ℕ)
  deriving DecidableEq

/-- One consumer operation: an external `seek` (so `split_seek=False`). -/
def SplitFileSt.stepTrace (s : SplitFileSt) : SFOp → SplitFileSt × List (ℕ × ℕ)
  | SFOp.read size => ((s.read size).1, [(s.pos, (s.read size).2)])
  | SFOp.seek off => (s.seek off false, [])

/-- Run a list of consumer operations, collecting all read segments. -/
def SplitFileSt.runTrace (s : SplitFileSt) : List SFOp → SplitFileSt × List (ℕ × ℕ)
  | [] => (s, [])
  | op :: ops =>
    let r := s.stepTrace op
    let r2 := r.1.runTrace ops
    (r2.1, r.2 ++ r2.2)

/-- Total number of bytes returned by the reads of a trace. -/
def totalRead (segs : List (ℕ × ℕ)) : ℕ :=
  (segs.map Prod.snd).sum

/-- Read sizes the consumer contract admits (the `-1` read-all sentinel or a
non-negative count) and seek targets inside `[0, bound]`. -/
def SFOp.valid (bound : ℕ) : SFOp → Bool
  | SFOp.read size => decide (size = -1 ∨ 0 ≤ size)
  | SFOp.seek off => decide (off ≤ bound)

/-!
Section: Size routing — `LargeFilesBase.get_iterator` (upload_files.py lines 122-127)

    for file in self.files:
        if os.path.getsize(file) > self.client.max_file_size:
            yield from self.process_large_file(file)
        else:
            yield self.process_normal_file(file)

An input file is embedded as its path together with the size
`os.path.getsize` reports; the two `process_*` hooks (overridden by
subclasses) are parameters.
-/

structure InFile where
  path : String
  size : ℕ
  deriving DecidableEq

def LargeFilesBase.getIterator {U : Type} (maxFileSize : ℕ)
    (processLargeFile : InFile → List U) (processNormalFile : InFile → U)
    (files : List InFile) : List U :=
  files.flatMap (fun f =>
    if maxFileSize < f.size then processLargeFile f else [processNormalFile f])

/-!
Section: `File.__init__` and caption/thumbnail logic (upload_files.py lines 141-203)

`File` subclasses `FileIO`; the Python value space
`Union[str, bool, None]` of the `thumbnail` argument is embedded as
`PyThumbVal`.  `File.__init__` ends with

    self._thumbnail = thumbnail
    (commented out:) self._caption = caption
    self._caption = caption.encode('utf-8').decode('utf-8')

so a `None` caption raises `AttributeError` (`None` has no `encode`) and
construction fails; for a `str`, the UTF-8 encode/decode round trip is the
identity.  Construction is therefore `Except`-valued.
-/

inductive PyThumbVal where
  | none
  | bool (b : Bool)
  | str (s : String)
  deriving DecidableEq

/-- The state of a successfully constructed `File`: after `__init__`,
`_caption` always holds a string (never `None`). -/
structure FileSt where
  path : String
  forceFile : Bool
  thumbnail : PyThumbVal
  caption : String
  deriving DecidableEq

/-- The `AttributeError` raised by `None.encode` (message abridged). -/
def attrErrNoneEncode : String :=
  "AttributeError: NoneType object has no attribute encode"

/-- `File.__init__(client, path, force_file, thumbnail, caption)`
(lines 144-152).  `classForceFile` is the class attribute `force_file`
(`False` on `File`, `True` on `SplitFile`) used when the argument is
`None`. -/
def File.initE (classForceFile : Bool) (path : String) (forceFile : Option Bool)
    (thumbnail : PyThumbVal) (caption : Option String) : Except String FileSt :=
  match caption with
  | Option.none => Except.error attrErrNoneEncode
  | Option.some c =>
    Except.ok { path := path, forceFile := forceFile.getD classForceFile,
                thumbnail := thumbnail, caption := c }

/-- `SplitFile.__init__(client, file, max_read_size, name)` (lines 209-213)
calls `super().__init__(client, file)`, so `force_file`, `thumbnail` and
`caption` all default to `None` (and the class attribute `force_file` is
`True`). -/
def SplitFile.initE (path : String) (maxReadSize : ℕ) (name : String) :
    Except String (FileSt × ℕ × String) :=
  match File.initE true path Option.none PyThumbVal.none Option.none with
  | Except.error e => Except.error e
  | Except.ok f => Except.ok (f, maxReadSize, name)

/-- `os.path.basename` for POSIX paths, as `File.file_name` uses it
(line 156): the component after the last slash. -/
def File.fileName (path : String) : String :=
  (pySplit path slashChar).getLastD path

/-- `File.short_name` (lines 163-164): `'.'.join(self.file_name.split('.')[:-1])`. -/
def File.shortName (path : String) : String :=
  String.intercalate dotStr ((pySplit (File.fileName path) dotChar).dropLast)

/-- Modelled from the spec: `truncate` from `telegram_upload.utils` is not in
src; §4.5 specifies only that the caption is truncated to the configured
maximum caption length (length-bounded). -/
def truncate (s : String) (maxLength : ℕ) : String :=
  s.take maxLength

/-- `File.file_caption` (lines 170-181).  `fmt` abstracts the external
`CaptionFormatter().format(caption, file=FilePath(path), now=...)` call. -/
def File.fileCaption (captionAttr : Option String) (path : String)
    (maxCaptionLength : ℕ) (fmt : String → String → String) : String :=
  match captionAttr with
  | Option.some c => truncate (fmt c path) maxCaptionLength
  | Option.none => truncate (File.shortName path) maxCaptionLength

/-- `File.is_custom_thumbnail` (lines 167-168):
`self._thumbnail is not False and self._thumbnail is not None`. -/
def File.isCustomThumbnail : PyThumbVal → Bool
  | PyThumbVal.none => false
  | PyThumbVal.bool b => b
  | PyThumbVal.str _ => true

/-- Outcome of `File.get_thumbnail`: a returned optional thumbnail path
(with the optional `click.echo`-reported suppressed error), a raised
`TypeError`, or a raised `TelegramInvalidFile`. -/
inductive ThumbOutcome where
  | ok (thumb : Option String) (echoed : Option String)
  | typeError
  | invalidFile (msg : String)
  deriving DecidableEq

def thumbMissingSuffix : String := " thumbnail file does not exists."

/-- `File.get_thumbnail` (lines 183-196).  `lexists` abstracts
`os.path.lexists`; `fileThumbRes` is the outcome of the external
`get_file_thumb(self.path)` call (a thumbnail path, `None` for non-video
files, or a raised `ThumbError`):

    thumb = None
    if self._thumbnail is None and not self.force_file:
        try:
            thumb = get_file_thumb(self.path)
        except ThumbError as e:
            click.echo('{}'.format(e), err=True)
    elif self.is_custom_thumbnail:
        if not isinstance(self._thumbnail, str):
            raise TypeError(...)
        elif not os.path.lexists(self._thumbnail):
            raise TelegramInvalidFile(...)
        thumb = self._thumbnail
    return thumb
-/
def File.getThumbnail (thumbnail : PyThumbVal) (forceFile : Bool)
    (lexists : String → Bool) (fileThumbRes : Except String (Option String)) :
    ThumbOutcome :=
  if thumbnail = PyThumbVal.none ∧ forceFile = false then
    match fileThumbRes with
    | Except.ok t => ThumbOutcome.ok t Option.none
    | Except.error e => ThumbOutcome.ok Option.none (Option.some e)
  else if File.isCustomThumbnail thumbnail then
    match thumbnail with
    | PyThumbVal.str s =>
      if lexists s then ThumbOutcome.ok (Option.some s) Option.none
      else ThumbOutcome.invalidFile (s ++ thumbMissingSuffix)
    | _ => ThumbOutcome.typeError
  else ThumbOutcome.ok Option.none Option.none

/-!
Section: Traversal — `RecursiveFiles` / `NoDirectoriesFiles` (upload_files.py lines 101-118)

    class RecursiveFiles(UploadFilesBase):
        def get_iterator(self):
            for file in self.files:
                if os.path.isdir(file):
                    yield from map(lambda file: file.path,
                                   filter(lambda x: not x.is_dir(), scantree(file, True)))
                else:
                    yield file

    class NoDirectoriesFiles(UploadFilesBase):
        def get_iterator(self):
            for file in self.files:
                if os.path.isdir(file):
                    raise TelegramInvalidFile('"{}" is a directory.'.format(file))
                else:
                    yield file

The file system is embedded as a tree of entries; an input path resolves to
the entry it denotes.
-/

inductive Entry where
  | file (path : String)
  | dir (path : String) (children : List Entry)

def Entry.path : Entry → String
  | Entry.file p => p
  | Entry.dir p _ => p

def Entry.isDir : Entry → Bool
  | Entry.file _ => false
  | Entry.dir _ _ => true

mutual

/-- Modelled from the spec: `scantree` from `telegram_upload.utils` is not in
src; §4.1 says the recursive variant "walks it fully (following the
directory tree, excluding directory entries themselves) and yields every
contained file path" — the directory filtering and `.path` projection are
done by the caller in src, so `scantree` itself yields every descendant
entry (files and directories) of a directory. -/
def scantree : Entry → List Entry
  | Entry.file _ => []
  | Entry.dir _ cs => scanList cs

def scanList : List Entry → List Entry
  | [] => []
  | e :: es => e :: (scantree e ++ scanList es)

end

mutual

/-- Specification-side description (§4.1): every plain file transitively
contained in an entry — the entry itself when it is a plain file. -/
def filesIn : Entry → List String
  | Entry.file p => [p]
  | Entry.dir _ cs => filesInList cs

def filesInList : List Entry → List String
  | [] => []
  | e :: es => filesIn e ++ filesInList es

end

/-- `RecursiveFiles.get_iterator` over resolved input entries. -/
def RecursiveFiles.getIterator (inputs : List Entry) : List String :=
  inputs.flatMap (fun e =>
    if e.isDir then ((scantree e).filter (fun x => !x.isDir)).map Entry.path
    else [e.path])

def dirErrSuffix : String := "\" is a directory."

/-- `NoDirectoriesFiles.get_iterator`: the generator yields paths until it
hits a directory input, where it raises `TelegramInvalidFile` naming the
path; the result is the yielded prefix and the optional error message. -/
def NoDirectoriesFiles.getIterator : List Entry → List String × Option String
  | [] => ([], Option.none)
  | e :: es =>
    if e.isDir then ([], Option.some (quoteStr ++ e.path ++ dirErrSuffix))
    else
      let r := NoDirectoriesFiles.getIterator es
      (e.path :: r.1, r.2)

/-!
Section: Theorems
-/

theorem SplitFiles.parts_spec (T M : ℕ) (hM : 0 < M) (hTM : M < T) :
    0 < SplitFiles.parts T M ∧ M * (SplitFiles.parts T M - 1) < T ∧
      T ≤ M * SplitFiles.parts T M := by
  have hdm := Nat.div_add_mod (T + M - 1) M
  have hmod : (T + M - 1) % M < M := Nat.mod_lt _ hM
  unfold SplitFiles.parts
  generalize h1 : (T + M - 1) / M = p at hdm
  generalize h2 : (T + M - 1) % M = r at hdm hmod
  have hp1 : 0 < p := by
    rcases Nat.eq_zero_or_pos p with h0 | h0
    · subst h0; simp at hdm; omega
    · exact h0
  obtain ⟨q, rfl⟩ : ∃ q, p = q + 1 := ⟨p - 1, by omega⟩
  rw [Nat.mul_succ] at hdm
  have hq : q + 1 - 1 = q := by omega
  rw [hq, Nat.mul_succ]
  generalize h3 : M * q = x at hdm ⊢
  omega

theorem SplitFiles.partSize_mid (T M i : ℕ) (h : i < SplitFiles.parts T M - 1) :
    SplitFiles.partSize T M i = M := by
  unfold SplitFiles.partSize
  rw [if_neg]
  omega

theorem SplitFiles.partSize_last (T M : ℕ) :
    SplitFiles.partSize T M (SplitFiles.parts T M - 1) =
      T - (SplitFiles.parts T M - 1) * M := by
  unfold SplitFiles.partSize
  rw [if_pos (le_refl _)]

theorem SplitFiles.plan_sum_aux (T M : ℕ) :
    ∀ k, k ≤ SplitFiles.parts T M - 1 →
      ((List.range k).map (SplitFiles.partSize T M)).sum = k * M := by
  intro k
  induction k with
  | zero => simp
  | succ n ih =>
    intro h
    rw [List.range_succ, List.map_append, List.sum_append, ih (by omega)]
    simp [SplitFiles.partSize_mid T M n (by omega)]
    ring

/-- Claim C1: for total size `T` and maximum part size `M` with `T > M`
(and `M > 0`), `SplitFiles.process_large_file` plans exactly `ceil(T/M)`
parts in index order — the part count `p` satisfies `M*(p-1) < T ≤ M*p` —
where every part but the last has length exactly `M`, the last part has
length `T - M*(p-1)`, part `i` starts at offset `i*M`, and the lengths sum
to `T`, so consecutive ranges tile `[0, T)` with no gaps or overlaps. -/
theorem C1_split_plan (T M : ℕ) (hM : 0 < M) (hTM : M < T) :
    0 < SplitFiles.parts T M ∧
    M * (SplitFiles.parts T M - 1) < T ∧
    T ≤ M * SplitFiles.parts T M ∧
    (SplitFiles.plan T M).length = SplitFiles.parts T M ∧
    (∀ i, i < SplitFiles.parts T M →
      (SplitFiles.plan T M)[i]? = Option.some (M * i, SplitFiles.partSize T M i)) ∧
    (∀ i, i + 1 < SplitFiles.parts T M → SplitFiles.partSize T M i = M) ∧
    SplitFiles.partSize T M (SplitFiles.parts T M - 1) =
      T - M * (SplitFiles.parts T M - 1) ∧
    (∀ i, i + 1 < SplitFiles.parts T M →
      M * i + SplitFiles.partSize T M i = M * (i + 1)) ∧
    M * (SplitFiles.parts T M - 1) +
      SplitFiles.partSize T M (SplitFiles.parts T M - 1) = T ∧
    ((SplitFiles.plan T M).map Prod.snd).sum = T := by
  obtain ⟨hp0, hlow, hhigh⟩ := SplitFiles.parts_spec T M hM hTM
  refine ⟨hp0, hlow, hhigh, ?_, ?_, ?_, ?_, ?_, ?_, ?_⟩
  · simp [SplitFiles.plan]
  · intro i hi
    simp [SplitFiles.plan, List.getElem?_map, List.getElem?_range hi]
  · intro i hi
    exact SplitFiles.partSize_mid T M i (by omega)
  · rw [SplitFiles.partSize_last, Nat.mul_comm]
  · intro i hi
    rw [SplitFiles.partSize_mid T M i (by omega), Nat.mul_succ]
  · have hlow2 : (SplitFiles.parts T M - 1) * M < T := by
      rw [Nat.mul_comm]; exact hlow
    rw [SplitFiles.partSize_last, Nat.mul_comm M (SplitFiles.parts T M - 1)]
    omega
  · have hlow2 : (SplitFiles.parts T M - 1) * M < T := by
      rw [Nat.mul_comm]; exact hlow
    have hsplit : SplitFiles.parts T M = (SplitFiles.parts T M - 1) + 1 := by omega
    rw [SplitFiles.plan, List.map_map]
    have hcomp : (Prod.snd ∘ fun i => (M * i, SplitFiles.partSize T M i)) =
        SplitFiles.partSize T M := rfl
    rw [hcomp, hsplit, List.range_succ, List.map_append, List.sum_append,
      SplitFiles.plan_sum_aux T M _ (le_refl _)]
    simp [SplitFiles.partSize_last]
    omega

/-- Witness for C1 at the spec §8 example: a 250-byte file split at 100
gives 3 parts whose lengths sum to 250. -/
theorem C1_witness :
    (0 : ℕ) < 100 ∧ (100 : ℕ) < 250 ∧
      ((SplitFiles.plan 250 100).map Prod.snd).sum = 250 := by
  refine ⟨by decide, by decide, ?_⟩
  have h := C1_split_plan 250 100 (by decide) (by decide)
  exact h.2.2.2.2.2.2.2.2.2

/- C2: a consumer that seeks backward and re-reads is handed more total
bytes than `max_read_size` — the slice for part 0 of a 2-byte file split at
`max_file_size = 1` (so `max_read_size = 1`, window `[0, 1)`) returns 2
bytes over its lifetime for the trace read-all, seek 0, read-all. -/

def cexSliceName : String := "bigfile.00"

def cexSlice : SplitFileSt := (SplitFileSt.init 2 1 cexSliceName).seek 0 true

def cexOps : List SFOp := [SFOp.read (-1), SFOp.seek 0, SFOp.read (-1)]

/-- Counterexample to claim C2 as stated: on the part-0 slice of a 2-byte
file with `max_read_size = 1`, the consumer trace "read all, seek back to
the slice start, read all" — all reads and seeks staying inside the
declared window — is returned 2 bytes in total, exceeding the declared
length 1. -/
theorem C2_counterexample :
    cexSlice.maxReadSize < totalRead (cexSlice.runTrace cexOps).2 ∧
    totalRead (cexSlice.runTrace cexOps).2 = 2 ∧
    cexSlice.maxReadSize = 1 ∧
    cexOps.all (SFOp.valid 1) = true := by
  decide

/-- A `read` under a well-formed state returns some `k ≤ remaining` bytes
from positions `[pos, pos + k)`, advancing `pos` by `k` and decrementing
`remaining` by `k`. -/
theorem SplitFileSt.read_step (s : SplitFileSt) (size : ℤ)
    (hsz : size = -1 ∨ 0 ≤ size) (h4 : 0 ≤ s.remaining)
    (hfit : (s.pos : ℤ) + s.remaining ≤ (s.fileSize : ℤ)) :
    ∃ k : ℕ, (k : ℤ) ≤ s.remaining ∧ (s.read size).2 = k ∧
      (s.read size).1 =
        { s with pos := s.pos + k, remaining := s.remaining - (k : ℤ) } := by
  obtain ⟨F, pos, rem, mrs, nm⟩ := s
  simp only at h4 hfit ⊢
  by_cases hrem : rem = 0
  · refine ⟨0, by omega, ?_, ?_⟩ <;> simp [SplitFileSt.read, hrem]
  · by_cases hsent : size = -1
    · subst hsent
      have hmin : min rem.toNat (F - pos) = rem.toNat := by omega
      have hcast : ((rem.toNat : ℤ)) = rem := Int.toNat_of_nonneg h4
      refine ⟨rem.toNat, by omega, ?_, ?_⟩ <;>
        simp [SplitFileSt.read, rawRead, hrem, if_neg (by omega : ¬rem < 0),
          hmin, hcast]
    · have hsz0 : 0 ≤ size := by rcases hsz with h | h; exact absurd h hsent; exact h
      have hmnn : 0 ≤ min rem size := by omega
      have hmin : min (min rem size).toNat (F - pos) = (min rem size).toNat := by
        omega
      have hcast : (((min rem size).toNat : ℤ)) = min rem size :=
        Int.toNat_of_nonneg hmnn
      refine ⟨(min rem size).toNat, by omega, ?_, ?_⟩ <;>
        simp [SplitFileSt.read, rawRead, hrem, hsent, hmin, hcast] <;>
        omega

/-- One consumer step preserves the window invariant
`pos + remaining = bound ∧ 0 ≤ remaining` (for `bound ≤ fileSize` and valid
operations) and only ever reads positions below `bound`. -/
theorem SplitFileSt.stepTrace_window (F bound : ℕ) (s : SplitFileSt) (op : SFOp)
    (h1 : s.fileSize = F) (h2 : bound ≤ F)
    (h3 : (s.pos : ℤ) + s.remaining = (bound : ℤ)) (h4 : 0 ≤ s.remaining)
    (h5 : SFOp.valid bound op = true) :
    (∀ seg ∈ (s.stepTrace op).2, seg.1 + seg.2 ≤ bound) ∧
    (s.stepTrace op).1.fileSize = F ∧
    ((s.stepTrace op).1.pos : ℤ) + (s.stepTrace op).1.remaining = (bound : ℤ) ∧
    0 ≤ (s.stepTrace op).1.remaining := by
  cases op with
  | seek off =>
    simp only [SFOp.valid, decide_eq_true_eq] at h5
    refine ⟨by simp [SplitFileSt.stepTrace], ?_, ?_, ?_⟩ <;>
      simp [SplitFileSt.stepTrace, SplitFileSt.seek, h1] <;> omega
  | read size =>
    simp only [SFOp.valid, decide_eq_true_eq] at h5
    obtain ⟨k, hk, h2eq, h1eq⟩ := s.read_step size h5 h4 (by rw [h1]; omega)
    refine ⟨?_, ?_, ?_, ?_⟩
    · intro seg hseg
      simp only [SplitFileSt.stepTrace, List.mem_singleton] at hseg
      subst hseg
      simp [h2eq]
      omega
    · simp [SplitFileSt.stepTrace, h1eq, h1]
    · simp [SplitFileSt.stepTrace, h1eq]
      omega
    · simp [SplitFileSt.stepTrace, h1eq]
      omega

/-- Running any valid consumer trace preserves the window invariant and
every read segment stays below `bound`. -/
theorem SplitFileSt.runTrace_window (F bound : ℕ) (ops : List SFOp) :
    ∀ s : SplitFileSt, s.fileSize = F → bound ≤ F →
      (s.pos : ℤ) + s.remaining = (bound : ℤ) → 0 ≤ s.remaining →
      (∀ op ∈ ops, SFOp.valid bound op = true) →
      (∀ seg ∈ (s.runTrace ops).2, seg.1 + seg.2 ≤ bound) ∧
      (s.runTrace ops).1.fileSize = F ∧
      ((s.runTrace ops).1.pos : ℤ) + (s.runTrace ops).1.remaining = (bound : ℤ) ∧
      0 ≤ (s.runTrace ops).1.remaining := by
  induction ops with
  | nil =>
    intro s h1 h2 h3 h4 _
    exact ⟨by simp [SplitFileSt.runTrace], h1, h3, h4⟩
  | cons op ops ih =>
    intro s h1 h2 h3 h4 h5
    obtain ⟨hseg1, hs1, hs2, hs3⟩ := SplitFileSt.stepTrace_window F bound s op
      h1 h2 h3 h4 (h5 op (by simp))
    obtain ⟨hseg2, ht1, ht2, ht3⟩ := ih (s.stepTrace op).1 hs1 h2 hs2 hs3
      (fun o ho => h5 o (by simp [ho]))
    simp only [SplitFileSt.runTrace]
    refine ⟨?_, ht1, ht2, ht3⟩
    intro seg hseg
    rw [List.mem_append] at hseg
    rcases hseg with h | h
    · exact hseg1 seg h
    · exact hseg2 seg h

/-- Claim C2, amended: the lifetime total can exceed `max_read_size` once
the consumer seeks backward and re-reads (see the counterexample), because
an external seek re-derives `remaining` from the window end; what the code
guarantees instead is positional: starting from the slice state built for a
window `[S, S+L)` of a file of size `≥ S+L`, any sequence of reads (with
the `-1` sentinel or a non-negative count) and consumer seeks targeting
positions `≤ S+L` maintains `pos + remaining = S + L` with
`remaining ≥ 0`, so every read returns only bytes from positions strictly
below `S + L` — never foreign bytes past the window, measured from the
slice's original start. -/
theorem C2_amended (F S L : ℕ) (nm : String) (ops : List SFOp)
    (hFit : S + L ≤ F)
    (hValid : ∀ op ∈ ops, SFOp.valid (S + L) op = true) :
    (∀ seg ∈ (((SplitFileSt.init F L nm).seek S true).runTrace ops).2,
      seg.1 + seg.2 ≤ S + L) ∧
    ((((SplitFileSt.init F L nm).seek S true).runTrace ops).1.pos : ℤ) +
      (((SplitFileSt.init F L nm).seek S true).runTrace ops).1.remaining =
      ((S + L : ℕ) : ℤ) ∧
    0 ≤ (((SplitFileSt.init F L nm).seek S true).runTrace ops).1.remaining := by
  obtain ⟨h1, _, h2, h3⟩ := SplitFileSt.runTrace_window F (S + L) ops
    ((SplitFileSt.init F L nm).seek S true)
    (by simp [SplitFileSt.init, SplitFileSt.seek])
    hFit
    (by simp [SplitFileSt.init, SplitFileSt.seek])
    (by simp [SplitFileSt.init, SplitFileSt.seek])
    hValid
  exact ⟨h1, h2, h3⟩

/-- Witness for the amended C2: part 1 of a 250-byte file split at 100
(window `[100, 200)`), with a read-all, a backward seek to 150 and another
read: every read segment stays below 200 and the invariant holds. -/
theorem C2_amended_witness :
    (∀ seg ∈ (((SplitFileSt.init 250 100 cexSliceName).seek 100 true).runTrace
        [SFOp.read (-1), SFOp.seek 150, SFOp.read 80]).2,
      seg.1 + seg.2 ≤ 100 + 100) ∧
    ((((SplitFileSt.init 250 100 cexSliceName).seek 100 true).runTrace
        [SFOp.read (-1), SFOp.seek 150, SFOp.read 80]).1.pos : ℤ) +
      (((SplitFileSt.init 250 100 cexSliceName).seek 100 true).runTrace
        [SFOp.read (-1), SFOp.seek 150, SFOp.read 80]).1.remaining =
      ((100 + 100 : ℕ) : ℤ) ∧
    0 ≤ (((SplitFileSt.init 250 100 cexSliceName).seek 100 true).runTrace
        [SFOp.read (-1), SFOp.seek 150, SFOp.read 80]).1.remaining :=
  C2_amended 250 100 100 cexSliceName [SFOp.read (-1), SFOp.seek 150, SFOp.read 80]
    (by decide) (by decide)

/-- Claim C3: `LargeFilesBase.get_iterator` routes by strict comparison —
a file whose size is less than or equal to `max_file_size` (including the
exact-boundary case) yields exactly one whole-file unit and the large-file
hook is never invoked; only a strictly greater size takes the large-file
path (reject or split, per subclass). -/
theorem C3_size_routing {U : Type} (maxFileSize : ℕ) (f : InFile)
    (processLargeFile : InFile → List U) (processNormalFile : InFile → U) :
    (f.size ≤ maxFileSize →
      LargeFilesBase.getIterator maxFileSize processLargeFile processNormalFile
        [f] = [processNormalFile f]) ∧
    (maxFileSize < f.size →
      LargeFilesBase.getIterator maxFileSize processLargeFile processNormalFile
        [f] = processLargeFile f) := by
  constructor
  · intro h
    have h2 : ¬maxFileSize < f.size := by omega
    simp [LargeFilesBase.getIterator, h2]
  · intro h
    simp [LargeFilesBase.getIterator, h]

def exFilePath : String := "/data/video.mp4"

/-- Witness for C3 at the exact boundary: a file of size 100 with
`max_file_size = 100` yields one whole-file unit, not the large-file
path. -/
theorem C3_witness :
    LargeFilesBase.getIterator 100 (fun _ => ([] : List ℕ)) (fun _ => 7)
      [{ path := exFilePath, size := 100 }] = [7] :=
  (C3_size_routing 100 { path := exFilePath, size := 100 }
    (fun _ => ([] : List ℕ)) (fun _ => 7)).1 (by decide)

theorem splitZfill_eq : splitZfill = 2 := by
  unfold splitZfill
  rw [Nat.log_eq_one_iff'.mpr ⟨le_refl 10, by omega⟩]

def cexBaseName : String := "f"

def cexPartName00 : String := "f.00"

def cexPartNameClaimed : String := "f.0"

/-- Counterexample to claim C4 as stated: the padding width is
`int(math.log10(10)) + 1 = 2`, not 1 — part 0 of a file named `f` is named
`f.00`, not `f.0`. -/
theorem C4_counterexample :
    SplitFiles.partName cexBaseName 0 = cexPartName00 ∧
    SplitFiles.partName cexBaseName 0 ≠ cexPartNameClaimed := by
  unfold SplitFiles.partName
  rw [splitZfill_eq]
  exact ⟨by decide, by decide⟩

/-- Claim C4, amended: the part name is the base name, a dot, and the part
index zero-padded to a fixed width of exactly 2 digits
(`int(math.log10(10)) + 1 = 2`, a constant not derived from the number of
parts): for a single-digit index the name is `{baseName}.0{i}`. -/
theorem C4_amended :
    splitZfill = 2 ∧
    ∀ (base : String) (i : ℕ), i < 10 →
      SplitFiles.partName base i = base ++ dotStr ++ (zeroStr ++ toString i) := by
  refine ⟨splitZfill_eq, ?_⟩
  intro base i hi
  unfold SplitFiles.partName
  rw [splitZfill_eq]
  congr 1
  interval_cases i <;> decide

def exBaseName : String := "video.mkv"

/-- Witness for the amended C4: part 3 of `video.mkv` is named
`video.mkv.03`. -/
theorem C4_witness :
    3 < 10 ∧
    SplitFiles.partName exBaseName 3 = exBaseName ++ dotStr ++ (zeroStr ++ toString 3) :=
  ⟨by decide, C4_amended.2 exBaseName 3 (by decide)⟩

def clipPath : String := "/videos/clip.mp4"

def clipShort : String := "clip"

/-- Claim C5 names intended behavior the code breaks: `File.file_caption`
does default to the base name with the final extension stripped, truncated
(second conjunct), but a `File` constructed with no caption template
(`caption=None`) never reaches it — `File.__init__` line 152 evaluates
`None.encode('utf-8')` and raises `AttributeError` (first conjunct), so the
documented default (docstring of `file_caption`, commented-out line 151) is
unreachable for whole-file units built without a template. -/
theorem C5_caption_default :
    File.initE false clipPath Option.none PyThumbVal.none Option.none =
      Except.error attrErrNoneEncode ∧
    (∀ (maxCaptionLength : ℕ) (fmt : String → String → String),
      File.fileCaption Option.none clipPath maxCaptionLength fmt =
        truncate clipShort maxCaptionLength) := by
  constructor
  · rfl
  · intro n fmt
    have h : File.shortName clipPath = clipShort := by decide
    simp [File.fileCaption, h]

/-- Claim C6: for a slice in a well-formed state (non-negative remaining
counter, window inside the underlying file), `read(-1)` reads exactly the
remaining bytes of the window; a non-negative request is clamped to the
remaining count before delegating (so `min remaining n` bytes come back and
`remaining` drops by that amount); and once `remaining` is exhausted any
further read returns zero bytes without error, leaving the state
unchanged. -/
theorem C6_read_clamp (s : SplitFileSt)
    (h0 : 0 ≤ s.remaining)
    (hfit : (s.pos : ℤ) + s.remaining ≤ (s.fileSize : ℤ)) :
    (s.read (-1) =
      ({ s with remaining := 0, pos := s.pos + s.remaining.toNat },
        s.remaining.toNat)) ∧
    (∀ n : ℤ, 0 ≤ n →
      s.read n =
        ({ s with remaining := s.remaining - min s.remaining n, pos := s.pos + (min s.remaining n).toNat },
          (min s.remaining n).toNat)) ∧
    (s.remaining = 0 → ∀ n : ℤ, s.read n = (s, 0)) := by
  obtain ⟨F, pos, rem, mrs, nm⟩ := s
  simp only at h0 hfit ⊢
  refine ⟨?_, ?_, ?_⟩
  · by_cases hrem : rem = 0
    · simp [SplitFileSt.read, hrem]
    · have hmin : min rem.toNat (F - pos) = rem.toNat := by omega
      simp [SplitFileSt.read, hrem, rawRead, hmin,
        Int.toNat_of_nonneg h0] <;> omega
  · intro n hn
    by_cases hrem : rem = 0
    · have hmn : min rem n = 0 := by omega
      simp [SplitFileSt.read, hrem, hmn] <;> omega
    · have hnn : 0 ≤ min rem n := by omega
      have hs : ¬n = -1 := by omega
      have hmin : min (min rem n).toNat (F - pos) = (min rem n).toNat := by omega
      simp [SplitFileSt.read, hrem, hs, rawRead, hmin,
        Int.toNat_of_nonneg hnn] <;> omega
  · intro hz n
    simp [SplitFileSt.read, hz]

def exSliceName : String := "big.01"

/-- Witness for C6: a slice state over a 10-byte file at position 2 with 3
bytes remaining returns exactly 3 bytes on `read(-1)` and ends exhausted at
position 5. -/
theorem C6_witness :
    (⟨10, 2, 3, 5, exSliceName⟩ : SplitFileSt).read (-1) =
      (⟨10, 5, 0, 5, exSliceName⟩, 3) := by
  have h := (C6_read_clamp ⟨10, 2, 3, 5, exSliceName⟩ (by decide) (by decide)).1
  simpa using h

/-- Claim C7: a seek not marked as the pipeline's internal repositioning
updates `remaining` to `remaining + (currentPosition - target)` before
delegating, while a `split_seek=True` seek leaves `remaining` unchanged;
the pipeline uses the latter exactly once per slice, at construction, to
jump to the slice's starting offset `max_file_size * part` while keeping
`remaining = partSize`. -/
theorem C7_seek_semantics :
    (∀ (s : SplitFileSt) (offset : ℕ),
      (s.seek offset false).remaining =
        s.remaining + ((s.pos : ℤ) - (offset : ℤ)) ∧
      (s.seek offset false).pos = offset ∧
      (s.seek offset false).fileSize = s.fileSize ∧
      (s.seek offset false).maxReadSize = s.maxReadSize ∧
      (s.seek offset true).remaining = s.remaining ∧
      (s.seek offset true).pos = offset) ∧
    (∀ (T M : ℕ) (fileName : String) (part : ℕ),
      (SplitFiles.makeSlice T M fileName part).remaining =
        ((SplitFiles.partSize T M part : ℕ) : ℤ) ∧
      (SplitFiles.makeSlice T M fileName part).pos = M * part ∧
      (SplitFiles.makeSlice T M fileName part).name =
        SplitFiles.partName fileName part ∧
      (SplitFiles.makeSlice T M fileName part).maxReadSize =
        SplitFiles.partSize T M part) := by
  constructor
  · intro s off
    refine ⟨?_, ?_, ?_, ?_, ?_, ?_⟩ <;> simp [SplitFileSt.seek] <;> omega
  · intro T M fn part
    refine ⟨?_, ?_, ?_, ?_⟩ <;>
      simp [SplitFiles.makeSlice, SplitFileSt.seek, SplitFileSt.init]

mutual

theorem scanFilter_entry : ∀ e : Entry,
    ((e :: scantree e).filter (fun x => !x.isDir)).map Entry.path = filesIn e
  | Entry.file p => by
    simp [scantree, filesIn, Entry.isDir, Entry.path]
  | Entry.dir n cs => by
    have h := scanFilter_list cs
    simpa [scantree, filesIn, Entry.isDir] using h

theorem scanFilter_list : ∀ es : List Entry,
    ((scanList es).filter (fun x => !x.isDir)).map Entry.path = filesInList es
  | [] => by simp [scanList, filesInList]
  | e :: es => by
    have h1 := scanFilter_entry e
    have h2 := scanFilter_list es
    have hcons : scanList (e :: es) = (e :: scantree e) ++ scanList es := by
      simp [scanList]
    rw [hcons, List.filter_append, List.map_append, h1, h2]
    simp [filesInList]

end

theorem recursive_item_eq (e : Entry) :
    (if e.isDir then ((scantree e).filter (fun x => !x.isDir)).map Entry.path
     else [e.path]) = filesIn e := by
  cases e with
  | file p => simp [Entry.isDir, filesIn, Entry.path]
  | dir n cs =>
    have h := scanFilter_list cs
    simpa [Entry.isDir, scantree] using h

/-- Claim C8: the recursive traversal yields exactly every plain file
transitively contained in each directory input and each plain-file input
unchanged (never a directory itself — `filesIn` collects only `Entry.file`
paths); the flat-only traversal yields the plain-file inputs unchanged up
to the first directory input, where it raises `TelegramInvalidFile` naming
the offending path. -/
theorem C8_traversal :
    (∀ inputs : List Entry,
      RecursiveFiles.getIterator inputs = inputs.flatMap filesIn) ∧
    (∀ inputs : List Entry,
      NoDirectoriesFiles.getIterator inputs =
        ((inputs.takeWhile (fun e => !e.isDir)).map Entry.path,
         (inputs.dropWhile (fun e => !e.isDir)).head?.map
           (fun e => quoteStr ++ e.path ++ dirErrSuffix))) := by
  constructor
  · intro inputs
    unfold RecursiveFiles.getIterator
    congr 1
    funext e
    exact recursive_item_eq e
  · intro inputs
    induction inputs with
    | nil => simp [NoDirectoriesFiles.getIterator]
    | cons e es ih =>
      cases he : e.isDir with
      | true =>
        simp [NoDirectoriesFiles.getIterator, he, List.takeWhile_cons,
          List.dropWhile_cons]
      | false =>
        simp [NoDirectoriesFiles.getIterator, he, List.takeWhile_cons,
          List.dropWhile_cons, ih]

/-- Claim C9: thumbnail resolution — an explicit override path is returned
unchanged when it exists and raises `TelegramInvalidFile` when it does not
(regardless of `force_file`); an explicitly disabled thumbnail
(`thumbnail=False`) produces none; when unset and not forced-plain,
automatic derivation is attempted and a derivation failure is suppressed
(echoed, not raised) leaving no thumbnail; a non-path-like override
(`thumbnail=True`) raises `TypeError`. -/
theorem C9_thumbnail (lexists : String → Bool)
    (fileThumbRes : Except String (Option String)) (forceFile : Bool) :
    (∀ p : String, lexists p = true →
      File.getThumbnail (PyThumbVal.str p) forceFile lexists fileThumbRes =
        ThumbOutcome.ok (Option.some p) Option.none) ∧
    (∀ p : String, lexists p = false →
      File.getThumbnail (PyThumbVal.str p) forceFile lexists fileThumbRes =
        ThumbOutcome.invalidFile (p ++ thumbMissingSuffix)) ∧
    (File.getThumbnail (PyThumbVal.bool false) forceFile lexists fileThumbRes =
      ThumbOutcome.ok Option.none Option.none) ∧
    (∀ t : Option String,
      File.getThumbnail PyThumbVal.none false lexists (Except.ok t) =
        ThumbOutcome.ok t Option.none) ∧
    (∀ e : String,
      File.getThumbnail PyThumbVal.none false lexists (Except.error e) =
        ThumbOutcome.ok Option.none (Option.some e)) ∧
    (File.getThumbnail (PyThumbVal.bool true) forceFile lexists fileThumbRes =
      ThumbOutcome.typeError) := by
  refine ⟨?_, ?_, ?_, ?_, ?_, ?_⟩
  · intro p hp
    simp [File.getThumbnail, File.isCustomThumbnail, hp]
  · intro p hp
    simp [File.getThumbnail, File.isCustomThumbnail, hp]
  · cases forceFile <;> simp [File.getThumbnail, File.isCustomThumbnail]
  · intro t
    simp [File.getThumbnail]
  · intro e
    simp [File.getThumbnail]
  · cases forceFile <;> simp [File.getThumbnail, File.isCustomThumbnail]

def exThumbPath : String := "/tmp/thumb.jpg"

/-- Witness for C9: an existing override path is returned unchanged. -/
theorem C9_witness :
    File.getThumbnail (PyThumbVal.str exThumbPath) false (fun _ => true)
      (Except.ok Option.none) = ThumbOutcome.ok (Option.some exThumbPath) Option.none :=
  (C9_thumbnail (fun _ => true) (Except.ok Option.none) false).1 exThumbPath rfl

/-- Claim C10: constructing a `File` with no caption (`caption=None`)
raises (`None.encode` has no attribute) before any unit is produced — in
particular every `SplitFile` the splitting pipeline constructs, since
`SplitFile.__init__` never forwards a caption — and any successfully
constructed unit's caption field holds a string, never `None`. -/
theorem C10_caption_none_raises :
    (∀ (classForceFile : Bool) (path : String) (forceFile : Option Bool)
        (thumbnail : PyThumbVal),
      File.initE classForceFile path forceFile thumbnail Option.none =
        Except.error attrErrNoneEncode) ∧
    (∀ (path : String) (maxReadSize : ℕ) (name : String),
      SplitFile.initE path maxReadSize name = Except.error attrErrNoneEncode) ∧
    (∀ (classForceFile : Bool) (path : String) (forceFile : Option Bool)
        (thumbnail : PyThumbVal) (caption : Option String) (st : FileSt),
      File.initE classForceFile path forceFile thumbnail caption =
        Except.ok st → caption = Option.some st.caption) := by
  refine ⟨?_, ?_, ?_⟩
  · intro cf path ffa th
    rfl
  · intro path mrs nm
    rfl
  · intro cf path ffa th cap st h
    cases cap with
    | none => exact absurd h (by simp [File.initE])
    | some c =>
      simp [File.initE] at h
      rw [← h]

def exUnitPath : String := "/data/a.bin"

def exCaption : String := "my caption"

/-- Witness for C10: a `File` constructed with a caption template holds
exactly that caption string. -/
theorem C10_witness :
    Option.some exCaption =
      Option.some (FileSt.caption
        { path := exUnitPath, forceFile := false, thumbnail := PyThumbVal.none,
          caption := exCaption }) :=
  C10_caption_none_raises.2.2 false exUnitPath Option.none PyThumbVal.none
    (Option.some exCaption)
    { path := exUnitPath, forceFile := false, thumbnail := PyThumbVal.none,
      caption := exCaption }
    rfl

end TgUp
